import Mathlib

/-!
Shallow embedding of the parser-plugin subsystem of merger-cli.

Python strings are modelled as `List Char` (`PStr`); `str.lower()` is
modelled charwise on the ASCII range, which is exact for ASCII text (the
extension regex only admits ASCII extensions).  Byte sequences are
`List Nat` with each element a byte value.  Classes implementing the
Parser contract are opaque values of the inductive `ParserTy`, with the
fallback `DefaultParser` a distinguished constructor.  Filesystem and
dynamic-import effects (`chardet.detect`, `filetype.guess`, codec
decoding, module execution) enter as explicit oracle parameters, so the
theorems quantify over every possible outcome of those effects.
-/

/-- Python strings as lists of characters. -/
abbrev PStr := List Char

/-- Charwise model of Python `str.lower()` (exact on ASCII; the extension
regex `\.[a-z0-9.]+$` only admits ASCII characters). -/
def pyLower (s : PStr) : PStr := s.map Char.toLower

/-- Python `s.endswith(suffix)`. -/
def pyEndsWith (s suffix : PStr) : Bool := suffix.isSuffixOf s

/-- Opaque model of `Type[Parser]` values: the distinguished fallback
`DefaultParser` plus plugin-supplied classes identified by a tag. -/
inductive ParserTy where
  | defaultP : ParserTy
  | plugin : Nat → ParserTy
deriving DecidableEq, Repr

/-- The registry `_PARSERS : Dict[str, Type[Parser]]`, as its association
list in insertion order. -/
abbrev Registry := List (PStr × ParserTy)

/-- `merger/parsers/modules.py::get_parser`: scan `_PARSERS.items()` in
insertion order, return the first parser whose extension is a
case-insensitive suffix of the filename, else `DefaultParser`. -/
def getParserV1 (ps : Registry) (filename : PStr) : ParserTy :=
  match ps with
  | [] => .defaultP
  | (extension, p) :: rest =>
    if pyEndsWith (pyLower filename) (pyLower extension) then p
    else getParserV1 rest filename

/-! ## Default Classifier (`merger/v2/readers/default_reader.py::DefaultReader`)

`chardet.detect` and `filetype.guess` are external probes; they are
modelled as oracle parameters (`guessEnc : List Nat → Nat` returning an
opaque encoding tag — the source substitutes `"utf-8"` when chardet
yields none, so the oracle is total; `mimeOracle : List Nat → Option PStr`).
Codec decoding is an oracle `decodeOracle : Nat → List Nat → Option PStr`
(`none` models `UnicodeDecodeError`).  The confidence score returned by
`guess_encoding` only feeds a debug log line in the source and never
changes the result, so it is omitted. -/

/-- The four entries of `DefaultReader.TEXTUAL_APPLICATION_MIMES`. -/
def TEXTUAL_APPLICATION_MIMES : List PStr :=
  ["application/json".data, "application/xml".data,
   "application/javascript".data, "application/x-yaml".data]

/-- `mime_type.startswith("text/") or mime_type in TEXTUAL_APPLICATION_MIMES`
from `DefaultReader.validate`. -/
def isTextMime (m : PStr) : Bool :=
  "text/".data.isPrefixOf m || TEXTUAL_APPLICATION_MIMES.contains m

/-- Python truthiness of the `Optional[str]` MIME probe result:
`None` and the empty string are falsy. -/
def mimeTruthy : Option PStr → Bool
  | none => false
  | some m => !m.isEmpty

/-- `DefaultReader.looks_binary`: reject on a NUL byte, else compare the
fraction of control bytes in `[0,9) ∪ (13,32)` against
`MAX_BINARY_RATIO = 0.30`.  The Python float comparison
`non_printable / max(len, 1) > 0.30` is modelled exactly over the
rationals as `10 * non_printable > 3 * max len 1`; the two agree for
every chunk whose length is below 2^52, far beyond any readable file
chunk (the double nearest 0.30 is below 3/10, so the float and rational
comparisons can only disagree when the quotient rounds onto that double
from above, which needs a denominator around 10^17). -/
def looks_binary (chunk : List Nat) : Bool :=
  if chunk.contains 0 then true
  else
    let nonPrintable := chunk.countP fun b => b < 9 || (13 < b && b < 32)
    decide (10 * nonPrintable > 3 * max chunk.length 1)

/-- `DefaultReader.validate`: MIME gate first, then the binary heuristic,
then attempt to decode the chunk with the inferred encoding. -/
def validate (mimeOracle : List Nat → Option PStr) (guessEnc : List Nat → Nat)
    (decodeOracle : Nat → List Nat → Option PStr) (chunk : List Nat) : Bool :=
  let mimeType := mimeOracle chunk
  if mimeTruthy mimeType && !isTextMime (mimeType.getD []) then false
  else if looks_binary chunk then false
  else (decodeOracle (guessEnc chunk) chunk).isSome

/-- `DefaultReader.get_content`: infer an encoding from the first 1024
bytes, decode the full sequence, and on `UnicodeDecodeError` fall back to
the lossy `decode("utf-8", errors="replace")`, modelled by the total
function `lossyUtf8`. -/
def get_content (guessEnc : List Nat → Nat) (decodeOracle : Nat → List Nat → Option PStr)
    (lossyUtf8 : List Nat → PStr) (fileBytes : List Nat) : PStr :=
  let encoding := guessEnc (fileBytes.take 1024)
  match decodeOracle encoding fileBytes with
  | some s => s
  | none => lossyUtf8 fileBytes

/-! ## Loaded plugin modules

A dynamically loaded Python module is modelled by its attribute table.
Python values appearing in plugin validation are modelled by `PyVal`:
strings, iterables (list/tuple and other non-string iterables), classes
(with a tag identifying the class and a flag for `issubclass(·, Parser)`),
and everything else.  Python strings are themselves iterable (yielding
their one-character substrings); classes and `vOther` values are not. -/

inductive PyVal where
  | vStr : PStr → PyVal
  | vIter : List PyVal → PyVal
  | vClass : Nat → Bool → PyVal
  | vOther : Nat → PyVal

/-- A loaded module: the value of `getattr(module, "__all__", None)`
(`none` when `__all__` is absent) and the module's attribute table. -/
structure PyModule where
  allVal : Option PyVal
  attrs : List (PStr × PyVal)

/-- `getattr(module, name)` as an `Option`. -/
def getattrM (m : PyModule) (name : PStr) : Option PyVal :=
  (m.attrs.find? fun a => a.1 == name).map Prod.snd

/-- Characters admitted after the leading dot by the extension regex
`\.[a-z0-9.]+$` compiled with `re.IGNORECASE`. -/
def isExtChar (c : Char) : Bool :=
  ('a' ≤ c && c ≤ 'z') || ('A' ≤ c && c ≤ 'Z') || ('0' ≤ c && c ≤ '9') || c == '.'

/-- `re.fullmatch` of the extension regex: a dot followed by one or more
characters from `[a-z0-9.]`, case-insensitively, consuming the whole
string. -/
def matchesExtRegex (s : PStr) : Bool :=
  match s with
  | '.' :: rest => !rest.isEmpty && rest.all isExtChar
  | _ => false

/-- Python iteration, as far as plugin validation exercises it: strings
yield their one-character substrings, lists/tuples their items; classes
and other values are not iterable (`isinstance(·, Iterable)` fails). -/
def pyIter : PyVal → Option (List PyVal)
  | .vStr s => some (s.map fun c => .vStr [c])
  | .vIter items => some items
  | _ => none

/-- The name `"EXTENSIONS"`. -/
def extName : PStr := "EXTENSIONS".data

/-- Python `dict` insertion applied to an association list built by a
comprehension: a duplicate key keeps its first position (the values here
always agree, both coming from `getattr` on the same module). -/
def pyDictInsert (acc : List (PStr × PyVal)) (p : PStr × PyVal) : List (PStr × PyVal) :=
  if acc.any fun q => q.1 == p.1 then acc else acc ++ [p]

/-- The dict `{name: getattr(module, name) for name in module_all}` minus
the effects handled by `buildAttrs` below: deduplicate keys, keeping
first-occurrence order. -/
def pyDict (pairs : List (PStr × PyVal)) : List (PStr × PyVal) :=
  pairs.foldl pyDictInsert []

/-- Rejection reasons of `get_extensions_and_parser_cls`, one per
`InvalidModule` raise site. -/
inductive Reason where
  | allMissingOrInvalid
  | allNotTwoItems
  | resolveFailed
  | extensionsMissing
  | extensionsNotIterable
  | extensionNotString
  | extensionRegex
  | notParserSubclass
deriving DecidableEq, Repr

/-- Outcomes of running `get_extensions_and_parser_cls` other than
acceptance: an `InvalidModule` raise, the uncaught `StopIteration` from
`next(...)` when the attribute dict holds no key other than
`EXTENSIONS`, and the uncaught `TypeError` from `getattr(module, item)`
when an `__all__` item is not a string. -/
inductive VErr where
  | invalidModule : Reason → VErr
  | stopIteration
  | typeError
deriving DecidableEq, Repr

/-- The comprehension `{attribute: getattr(module, attribute) for attribute
in module_all}` wrapped in `try/except AttributeError`: items are
processed left to right; a non-string item raises `TypeError` (uncaught),
a missing attribute raises `AttributeError` (turned into
`InvalidModule`). -/
def buildAttrs (m : PyModule) : List PyVal → Except VErr (List (PStr × PyVal))
  | [] => .ok []
  | .vStr n :: rest =>
    match getattrM m n with
    | none => .error (.invalidModule .resolveFailed)
    | some v => (buildAttrs m rest).map fun tail => (n, v) :: tail
  | _ :: _ => .error .typeError

/-- The per-extension loop of `get_extensions_and_parser_cls`: each item
is first checked to be a string, then matched against the extension
regex; the first failing item determines the error. -/
def checkExts : List PyVal → Except VErr (List PStr)
  | [] => .ok []
  | .vStr s :: rest =>
    if matchesExtRegex s then (checkExts rest).map fun tail => s :: tail
    else .error (.invalidModule .extensionRegex)
  | _ :: _ => .error (.invalidModule .extensionNotString)

/-- `frozenset(extensions)`: deduplication; first-occurrence order is
taken as the canonical iteration order of the set. -/
def pyFrozenset (l : List PStr) : List PStr :=
  l.foldl (fun acc s => if acc.contains s then acc else acc ++ [s]) []

/-- `merger/parsers/modules.py::get_extensions_and_parser_cls`, with each
`raise InvalidModule` site mapped to its `Reason` and the two uncaught
exception paths mapped to `stopIteration` and `typeError`. -/
def get_extensions_and_cls (m : PyModule) : Except VErr (List PStr × PyVal) :=
  match m.allVal with
  | some (.vIter items) =>
    if items.length ≠ 2 then .error (.invalidModule .allNotTwoItems)
    else
      match buildAttrs m items with
      | .error e => .error e
      | .ok pairs =>
        let attributes := pyDict pairs
        if !attributes.any fun q => q.1 == extName then
          .error (.invalidModule .extensionsMissing)
        else
          match (attributes.find? fun q => q.1 == extName).map Prod.snd with
          | none => .error (.invalidModule .extensionsMissing)
          | some extVal =>
            match pyIter extVal with
            | none => .error (.invalidModule .extensionsNotIterable)
            | some extItems =>
              match checkExts extItems with
              | .error e => .error e
              | .ok exts =>
                match attributes.filter fun q => !(q.1 == extName) with
                | [] => .error .stopIteration
                | (_, cls) :: _ =>
                  match cls with
                  | .vClass _ true => .ok (pyFrozenset exts, cls)
                  | _ => .error (.invalidModule .notParserSubclass)
  | _ => .error (.invalidModule .allMissingOrInvalid)

/-- `inspect.isclass(v) and issubclass(v, Parser)`. -/
def isParserClass : PyVal → Bool
  | .vClass _ sub => sub
  | _ => false

/-- `isinstance(v, str)`. -/
def isVStrB : PyVal → Bool
  | .vStr _ => true
  | _ => false

/-- Every item of the iterable is a string matching the extension regex. -/
def strListValid (l : List PyVal) : Bool :=
  l.all fun it =>
    match it with
    | .vStr s => matchesExtRegex s
    | _ => false

/-- `merger/v2/parsers/parsers.py::validate_module`: same checks as the
v1 extractor but every rejection returns `False` instead of raising;
only the `TypeError` from a non-string `__all__` item escapes
(`Except.error ()`).  The v2 path additionally requires exactly one
non-`EXTENSIONS` export in the dict, so a twice-listed `EXTENSIONS`
yields `False` rather than an exception. -/
def validate_module (m : PyModule) : Except Unit Bool :=
  match m.allVal with
  | some (.vIter items) =>
    if items.length ≠ 2 then .ok false
    else
      match buildAttrs m items with
      | .error .typeError => .error ()
      | .error _ => .ok false
      | .ok pairs =>
        let exported := pyDict pairs
        if !exported.any fun q => q.1 == extName then .ok false
        else
          match (exported.find? fun q => q.1 == extName).map Prod.snd with
          | none => .ok false
          | some extVal =>
            match pyIter extVal with
            | none => .ok false
            | some extItems =>
              match checkExts extItems with
              | .error _ => .ok false
              | .ok _ =>
                match exported.filter fun q => !(q.1 == extName) with
                | [(_, cls)] => .ok (isParserClass cls)
                | _ => .ok false
  | _ => .ok false

/-- The acceptance conditions exactly as the specification words them
(§4.2): the artifact declares exactly two public exports; one is named
`EXTENSIONS` and is bound to an iterable of strings, each matching the
extension regex; the other is a class implementing the Parser contract. -/
def specExportsOk (m : PyModule) (nExt nOther : PStr) : Bool :=
  match getattrM m nExt, getattrM m nOther with
  | some eV, some oV =>
    (match pyIter eV with
     | some extItems => strListValid extItems
     | none => false) && isParserClass oV
  | _, _ => false

/-- Spec-worded plugin acceptance: `__all__` is a list/tuple of exactly
two distinct names, one of them `EXTENSIONS`, satisfying
`specExportsOk`. -/
def specAccepts (m : PyModule) : Bool :=
  match m.allVal with
  | some (.vIter [.vStr n1, .vStr n2]) =>
    if n1 == n2 then false
    else if n1 == extName then specExportsOk m n1 n2
    else if n2 == extName then specExportsOk m n2 n1
    else false
  | _ => false

/-- A module whose `__all__` lists `EXTENSIONS` twice over a valid
extension iterable: `__all__ = ["EXTENSIONS", "EXTENSIONS"]`,
`EXTENSIONS = [".x"]`. -/
def dupExtensionsModule : PyModule :=
  { allVal := some (.vIter [.vStr extName, .vStr extName])
    attrs := [(extName, .vIter [.vStr ".x".data])] }

/-- A module whose `__all__` holds a non-string item:
`__all__ = [object(), "EXTENSIONS"]`. -/
def badAllItemModule : PyModule :=
  { allVal := some (.vIter [.vOther 0, .vStr extName])
    attrs := [] }

/-! ## Registry construction

v2 (`merger/v2/parsers/parsers.py::load_parsers`): artifacts found in the
plugins directory are modelled as a list of `Option PyModule` in
directory order (`none` models a spec/exec failure inside
`load_module_from_path`, which returns `None` and is skipped).  v1
(`merger/parsers/modules.py::load_parsers`): installed records are read
from the persisted store; the filesystem and `module_from_path` enter as
oracles `fs : PStr → FileStatus` and `exec : PStr → Option PyModule`. -/

/-- Outcome of `Path.exists()` / `Path.is_file()` for a path. -/
inductive FileStatus where
  | missing
  | file
  | directory
deriving DecidableEq, Repr

/-- A persisted `PluginRecord`: the `modules` entry
`{extensions, path, original_name}`. -/
structure Record where
  extensions : List PStr
  path : PStr
  originalName : PStr
deriving Inhabited

/-- After validation, the registered parser class: `vClass cid` maps to
`ParserTy.plugin cid` (the defaults are unreachable for validated
modules). -/
def toParserTy : PyVal → ParserTy
  | .vClass cid _ => .plugin cid
  | _ => .defaultP

/-- The inner registration loop shared by both `load_parsers` versions:
`for extension in extensions: if extension in parsers: raise ...;
parsers[extension] = parser_cls`.  The error carries the first
conflicting extension. -/
def registerExts (cls : ParserTy) : List PStr → Registry → Except PStr Registry
  | [], acc => .ok acc
  | e :: rest, acc =>
    if acc.any fun q => q.1 == e then .error e
    else registerExts cls rest (acc ++ [(e, cls)])

/-- `module.EXTENSIONS` as iterated by the v2 loader after validation
(the defaults are unreachable for validated modules). -/
def moduleExts (m : PyModule) : List PStr :=
  match getattrM m extName with
  | some v =>
    match pyIter v with
    | some items =>
      items.filterMap fun it =>
        match it with
        | .vStr s => some s
        | _ => none
    | none => []
  | none => []

/-- `next(getattr(module, name) for name in module.__all__ if name !=
"EXTENSIONS")` as run by the v2 loader after validation. -/
def moduleCls (m : PyModule) : ParserTy :=
  match m.allVal with
  | some (.vIter items) =>
    match (items.filterMap fun it =>
        match it with
        | .vStr n => some n
        | _ => none).filter fun n => !(n == extName) with
    | n :: _ =>
      match getattrM m n with
      | some v => toParserTy v
      | none => .defaultP
    | [] => .defaultP
  | _ => .defaultP

/-- Errors aborting v2 registry construction: an uncaught `TypeError`
escaping `validate_module`, or the `ValueError` raised for a duplicate
extension (carrying the conflicting extension). -/
inductive LoadV2Err where
  | typeErr
  | duplicate : PStr → LoadV2Err
deriving DecidableEq, Repr

/-- The loop of v2 `load_parsers` over the discovered artifacts with the
accumulated registry. -/
def load_parsers_v2_go : List (Option PyModule) → Registry → Except LoadV2Err Registry
  | [], acc => .ok acc
  | none :: rest, acc => load_parsers_v2_go rest acc
  | some m :: rest, acc =>
    match validate_module m with
    | .error _ => .error .typeErr
    | .ok false => load_parsers_v2_go rest acc
    | .ok true =>
      match registerExts (moduleCls m) (moduleExts m) acc with
      | .error e => .error (.duplicate e)
      | .ok acc2 => load_parsers_v2_go rest acc2

/-- `merger/v2/parsers/parsers.py::load_parsers`. -/
def load_parsers_v2 (arts : List (Option PyModule)) : Except LoadV2Err Registry :=
  load_parsers_v2_go arts []

/-- `validate_module` returned `True` (no exception). -/
def isValidatedTrue (m : PyModule) : Bool :=
  match validate_module m with
  | .ok true => true
  | _ => false

/-- The concatenated extension declarations of the artifacts that load
and validate, in registration order. -/
def validExts (arts : List (Option PyModule)) : List PStr :=
  ((arts.filterMap id).filter isValidatedTrue).flatMap moduleExts

/-- Errors aborting v1 registry construction — every failure of a single
record is fatal there: missing stored file, stored path a directory,
`ImportError` from module execution, any exception out of
`get_extensions_and_parser_cls`, and the duplicate-extension
`InvalidModule`. -/
inductive LoadV1Err where
  | fileNotFound : PStr → LoadV1Err
  | isADirectory : PStr → LoadV1Err
  | importError : PStr → LoadV1Err
  | moduleError : VErr → LoadV1Err
  | duplicateExtension : PStr → LoadV1Err
deriving DecidableEq, Repr

/-- The loop of v1 `load_parsers` over the persisted records. -/
def load_parsers_v1_go (fs : PStr → FileStatus) (exec : PStr → Option PyModule) :
    List (PStr × Record) → Registry → Except LoadV1Err Registry
  | [], acc => .ok acc
  | (_, entry) :: rest, acc =>
    match fs entry.path with
    | .missing => .error (.fileNotFound entry.path)
    | .directory => .error (.isADirectory entry.path)
    | .file =>
      match exec entry.path with
      | none => .error (.importError entry.path)
      | some m =>
        match get_extensions_and_cls m with
        | .error e => .error (.moduleError e)
        | .ok (exts, cls) =>
          match registerExts (toParserTy cls) exts acc with
          | .error e => .error (.duplicateExtension e)
          | .ok acc2 => load_parsers_v1_go fs exec rest acc2

/-- `merger/parsers/modules.py::load_parsers`. -/
def load_parsers_v1 (fs : PStr → FileStatus) (exec : PStr → Option PyModule)
    (modules : List (PStr × Record)) : Except LoadV1Err Registry :=
  load_parsers_v1_go fs exec modules []

/-- A module with no `__all__` at all (rejected by validation). -/
def noAllModule : PyModule := { allVal := none, attrs := [] }

/-- A well-formed plugin module: `__all__ = ["EXTENSIONS", "P"]`,
`EXTENSIONS = [".y"]`, `P` a Parser subclass. -/
def goodPluginModule : PyModule :=
  { allVal := some (.vIter [.vStr extName, .vStr "P".data])
    attrs := [(extName, .vIter [.vStr ".y".data]), ("P".data, .vClass 2 true)] }

/-- Every stored path exists and is a regular file. -/
def fsAllFiles : PStr → FileStatus := fun _ => .file

/-- Module execution oracle: the good artifact at `good.py`, an invalid
one everywhere else. -/
def execModules : PStr → Option PyModule :=
  fun p => if p == "good.py".data then some goodPluginModule else some noAllModule

/-- A persisted store whose first record's artifact is invalid and whose
second is valid. -/
def storeWithBadFirst : List (PStr × Record) :=
  [("h1".data, ⟨[".z".data], "bad.py".data, "plugin.py".data⟩),
   ("h2".data, ⟨[".y".data], "good.py".data, "other.py".data⟩)]

/-! ## Plugin installer (`merger/parsers/modules.py::install_module`)

`hash_from_file` and the module import are effects: the candidate enters
as its short content hash, its original filename and the outcome of
`module_from_path` (`none` models a load failure).  The persisted store
is the `modules` mapping as an association list in insertion order. -/

/-- The managed plugin store directory (`get_parsers_dir()`). -/
def parsersDirPath : PStr := "parsers/".data

/-- The stored path `get_parsers_dir() / (file_hash + ".py")`. -/
def storedPath (fileHash : PStr) : PStr := parsersDirPath ++ fileHash ++ ".py".data

/-- The union of extensions claimed by every installed record
(`module_entry.get("extensions", [])` over `modules.values()`). -/
def installedExtensions (modules : List (PStr × Record)) : List PStr :=
  modules.flatMap fun e => e.2.extensions

/-- Failure modes of `install_module`: the two `ModuleAlreadyInstalled`
raise sites (duplicate hash, extension overlap — the latter carrying the
conflicting extensions it names), the load failures out of
`module_from_path`, and the exceptions out of
`get_extensions_and_parser_cls`. -/
inductive InstallErr where
  | alreadyInstalledHash
  | alreadyInstalledExtensions : List PStr → InstallErr
  | loadFailure
  | invalid : VErr → InstallErr
deriving DecidableEq, Repr

/-- `ModuleAlreadyInstalled` was raised. -/
def isAlreadyInstalled : InstallErr → Bool
  | .alreadyInstalledHash => true
  | .alreadyInstalledExtensions _ => true
  | _ => false

/-- `merger/parsers/modules.py::install_module`: duplicate-hash check,
artifact load and validation, extension-overlap check, then copy the
file and append the new record. -/
def install_module (modules : List (PStr × Record)) (fileHash origName : PStr)
    (loadOutcome : Option PyModule) : Except InstallErr (List (PStr × Record)) :=
  if modules.any fun e => e.1 == fileHash then .error .alreadyInstalledHash
  else
    match loadOutcome with
    | none => .error .loadFailure
    | some m =>
      match get_extensions_and_cls m with
      | .error e => .error (.invalid e)
      | .ok (exts, _) =>
        if (exts.filter fun x => (installedExtensions modules).contains x).isEmpty then
          .ok (modules ++ [(fileHash,
            { extensions := exts
              path := storedPath fileHash
              originalName := origName })])
        else
          .error (.alreadyInstalledExtensions
            (exts.filter fun x => (installedExtensions modules).contains x))

/-- `install_module` together with the store that remains persisted: the
new store on success, the untouched old store on any raise (every raise
site precedes the record mutation and the `write_json`). -/
def install_run (modules : List (PStr × Record)) (fileHash origName : PStr)
    (loadOutcome : Option PyModule) :
    Except InstallErr Unit × List (PStr × Record) :=
  match install_module modules fileHash origName loadOutcome with
  | .ok m2 => (.ok (), m2)
  | .error e => (.error e, modules)

/-- A store with one installed record, hash `h1`, claiming `.y`. -/
def preinstalledStore : List (PStr × Record) :=
  [("h1".data,
    { extensions := [".y".data]
      path := storedPath "h1".data
      originalName := "o.py".data })]

/-! ## Uninstall (`merger/parsers/modules.py::uninstall_module`, wildcard)

For `uninstall_module("*")` the source loops over the records, and inside
the loop raises `IsADirectoryError` when a stored path exists but is not
a regular file; `modules.clear()` and `write_json` only run after the
loop.  The model records the result, the paths actually unlinked, and
the store that remains persisted. -/

/-- Failure modes of `uninstall_module`. -/
inductive UninstallErr where
  | isADirectory : PStr → UninstallErr
  | notFound : PStr → UninstallErr
deriving DecidableEq, Repr

/-- Result of the wildcard uninstall: outcome, unlinked paths in order,
and the persisted `modules` mapping afterwards. -/
structure UninstallOutcome where
  result : Except UninstallErr Unit
  deleted : List PStr
  store : List (PStr × Record)

/-- The loop of `uninstall_module("*")`: missing paths are skipped,
regular files are unlinked, a directory aborts the whole call by raising
(leaving the persisted store as it was, since `modules.clear()` and
`write_json` are never reached); if the loop completes, the store is
cleared and written back empty. -/
def uninstall_star_go (fs : PStr → FileStatus) (orig : List (PStr × Record)) :
    List (PStr × Record) → List PStr → UninstallOutcome
  | [], deleted => ⟨.ok (), deleted.reverse, []⟩
  | (_, entry) :: rest, deleted =>
    match fs entry.path with
    | .missing => uninstall_star_go fs orig rest deleted
    | .file => uninstall_star_go fs orig rest (entry.path :: deleted)
    | .directory => ⟨.error (.isADirectory entry.path), deleted.reverse, orig⟩

/-- `uninstall_module("*")`. -/
def uninstall_star (fs : PStr → FileStatus) (modules : List (PStr × Record)) :
    UninstallOutcome :=
  uninstall_star_go fs modules modules []

/-- Stored-path statuses for the C3 failing input: `pdir` is a directory,
everything else a regular file. -/
def fsDirFirst : PStr → FileStatus :=
  fun p => if p == "pdir".data then .directory else .file

/-- A store of two records; the first record's stored path is the
directory `pdir`, the second's is the regular file `pfile`. -/
def storeTwoRecords : List (PStr × Record) :=
  [("h1".data, { extensions := [".a".data], path := "pdir".data,
                 originalName := "a.py".data }),
   ("h2".data, { extensions := [".b".data], path := "pfile".data,
                 originalName := "b.py".data })]

/-- `merger/v2/parsers/parsers.py::get_parser`: the loop
`for extension, parser in _PARSERS.values()` tuple-unpacks each value of
the mapping; the values are parser classes, which are not iterable, so
the first iteration over a non-empty registry raises `TypeError`
(modelled `.error ()`); over an empty registry the loop body never runs
and `DefaultParser` is returned. -/
def getParserV2 (ps : Registry) (_filename : PStr) : Except Unit ParserTy :=
  match ps with
  | [] => .ok .defaultP
  | _ :: _ => .error ()

/-- A plugin claiming `.txt` (class tag 10). -/
def txtPluginModule : PyModule :=
  { allVal := some (.vIter [.vStr extName, .vStr "A".data])
    attrs := [(extName, .vIter [.vStr ".txt".data]), ("A".data, .vClass 10 true)] }

/-- A plugin claiming `.TXT` (class tag 11) — valid, since the extension
regex is compiled with `re.IGNORECASE`. -/
def upperTxtPluginModule : PyModule :=
  { allVal := some (.vIter [.vStr extName, .vStr "B".data])
    attrs := [(extName, .vIter [.vStr ".TXT".data]), ("B".data, .vClass 11 true)] }

/-- The store after installing the `.txt` plugin. -/
def lowerTxtStore : List (PStr × Record) :=
  [("h1".data,
    { extensions := [".txt".data]
      path := storedPath "h1".data
      originalName := "a.py".data })]

/-- The store after additionally installing the `.TXT` plugin. -/
def bothTxtStore : List (PStr × Record) :=
  lowerTxtStore ++ [("h2".data,
    { extensions := [".TXT".data]
      path := storedPath "h2".data
      originalName := "b.py".data })]

/-- Module execution oracle matching the two stored files. -/
def execTxtModules : PStr → Option PyModule :=
  fun p => if p == storedPath "h1".data then some txtPluginModule
    else some upperTxtPluginModule

/-- C1: For every registry and every filename, `get_parser` performs
case-insensitive suffix matching of the filename against every installed
extension; the first matching extension in insertion order wins, and if no
installed extension matches (in particular for the empty registry or an
unregistered suffix), `DefaultParser` is returned. -/
theorem getParserV1_first_ci_suffix_match_or_default (ps : Registry) (filename : PStr) :
    getParserV1 ps filename =
      (((ps.find? fun ep => pyEndsWith (pyLower filename) (pyLower ep.1)).map Prod.snd).getD
        ParserTy.defaultP) := by
  induction ps with
  | nil => rfl
  | cons head tail ih =>
    obtain ⟨extension, p⟩ := head
    by_cases h : pyEndsWith (pyLower filename) (pyLower extension) = true
    · simp [getParserV1, List.find?, h]
    · simp only [Bool.not_eq_true] at h
      simp [getParserV1, List.find?, h, ih]

/-- C4: For every byte sequence and every outcome of the
encoding-inference and decoding oracles, `get_content` totally returns a
string: either the successful decode of the full content under the
encoding inferred from the first 1024 bytes, or the lossy UTF-8 fallback
when that decode fails.  (Freedom from exceptions is totality of
`get_content` together with this exhaustive case split.) -/
theorem get_content_total_decode_or_lossy_fallback
    (guessEnc : List Nat → Nat) (decodeOracle : Nat → List Nat → Option PStr)
    (lossyUtf8 : List Nat → PStr) (fileBytes : List Nat) :
    (∃ s, decodeOracle (guessEnc (fileBytes.take 1024)) fileBytes = some s ∧
        get_content guessEnc decodeOracle lossyUtf8 fileBytes = s) ∨
      (decodeOracle (guessEnc (fileBytes.take 1024)) fileBytes = none ∧
        get_content guessEnc decodeOracle lossyUtf8 fileBytes = lossyUtf8 fileBytes) := by
  unfold get_content
  cases h : decodeOracle (guessEnc (fileBytes.take 1024)) fileBytes with
  | none => exact Or.inr ⟨rfl, by simp [h]⟩
  | some s => exact Or.inl ⟨s, rfl, by simp [h]⟩

/-- C7: a chunk containing a NUL byte is rejected by `validate` for every
outcome of the MIME probe and of the encoding oracles. -/
theorem validate_rejects_nul_byte
    (mimeOracle : List Nat → Option PStr) (guessEnc : List Nat → Nat)
    (decodeOracle : Nat → List Nat → Option PStr) (chunk : List Nat)
    (h : 0 ∈ chunk) :
    validate mimeOracle guessEnc decodeOracle chunk = false := by
  have hbin : looks_binary chunk = true := by
    unfold looks_binary
    simp [List.contains_iff_exists_mem_beq]
    exact Or.inl h
  unfold validate
  by_cases hm : (mimeTruthy (mimeOracle chunk) && !isTextMime ((mimeOracle chunk).getD [])) = true
  · simp [hm]
  · simp only [Bool.not_eq_true] at hm
    simp [hm, hbin]

/-- C7 witness: the one-byte chunk `[0]` with the trivial oracles. -/
theorem validate_rejects_nul_byte_witness :
    validate (fun _ => none) (fun _ => 0) (fun _ _ => some []) [0] = false :=
  validate_rejects_nul_byte (fun _ => none) (fun _ => 0) (fun _ _ => some []) [0]
    (by decide)

/-- C8: a non-empty chunk in which strictly more than 30 percent of the
bytes lie in the control ranges `[0,9) ∪ (13,32)`, and whose MIME probe
yields no disallowed type, is rejected by `validate` for every outcome of
the encoding oracles. -/
theorem validate_rejects_high_control_ratio
    (mimeOracle : List Nat → Option PStr) (guessEnc : List Nat → Nat)
    (decodeOracle : Nat → List Nat → Option PStr) (chunk : List Nat)
    (hne : chunk ≠ [])
    (_hmime : ∀ m, mimeOracle chunk = some m → m = [] ∨ isTextMime m = true)
    (hratio : 10 * chunk.countP (fun b => b < 9 || (13 < b && b < 32)) > 3 * chunk.length) :
    validate mimeOracle guessEnc decodeOracle chunk = false := by
  have hbin : looks_binary chunk = true := by
    unfold looks_binary
    by_cases hc : chunk.contains 0 = true
    · rw [if_pos hc]
    · rw [if_neg hc]
      show decide (10 * chunk.countP (fun b => b < 9 || (13 < b && b < 32)) >
        3 * max chunk.length 1) = true
      have hlen : max chunk.length 1 = chunk.length :=
        Nat.max_eq_left (Nat.one_le_iff_ne_zero.mpr (by simpa using hne))
      rw [hlen]
      exact decide_eq_true hratio
  unfold validate
  by_cases hm : (mimeTruthy (mimeOracle chunk) && !isTextMime ((mimeOracle chunk).getD [])) = true
  · simp [hm]
  · simp only [Bool.not_eq_true] at hm
    simp [hm, hbin]

set_option maxRecDepth 100000 in
/-- C8 witness: the spec's example, a 500-byte chunk with 200 bytes (40
percent) equal to 1 (in range `[0,8]`) and 300 printable bytes, MIME probe
yielding nothing. -/
theorem validate_rejects_high_control_ratio_witness :
    validate (fun _ => none) (fun _ => 0) (fun _ _ => some [])
      (List.replicate 200 1 ++ List.replicate 300 65) = false :=
  validate_rejects_high_control_ratio (fun _ => none) (fun _ => 0) (fun _ _ => some [])
    (List.replicate 200 1 ++ List.replicate 300 65)
    (by decide)
    (fun m hm => by simp at hm)
    (by decide)

lemma checkExts_isOk_eq (l : List PyVal) :
    (checkExts l).isOk = strListValid l := by
  induction l with
  | nil => rfl
  | cons head tail ih =>
    cases head with
    | vStr s =>
      by_cases hre : matchesExtRegex s = true
      · cases htail : checkExts tail with
        | error e =>
          rw [htail] at ih
          simp [checkExts, strListValid, hre, htail, Except.map, Except.isOk,
            Except.toBool] at ih ⊢
          exact ih
        | ok v =>
          rw [htail] at ih
          simp [checkExts, strListValid, hre, htail, Except.map, Except.isOk,
            Except.toBool] at ih ⊢
          exact ih
      · simp only [Bool.not_eq_true] at hre
        simp [checkExts, strListValid, hre, Except.isOk, Except.toBool]
    | vIter items => simp [checkExts, strListValid, Except.isOk, Except.toBool]
    | vClass n b => simp [checkExts, strListValid, Except.isOk, Except.toBool]
    | vOther n => simp [checkExts, strListValid, Except.isOk, Except.toBool]

lemma checkExts_error_invalid (l : List PyVal) :
    ∀ e, checkExts l = .error e → ∃ r, e = VErr.invalidModule r := by
  induction l with
  | nil => intro e h; simp [checkExts] at h
  | cons head tail ih =>
    intro e h
    cases head with
    | vStr s =>
      by_cases hre : matchesExtRegex s = true
      · cases htail : checkExts tail with
        | error e2 =>
          simp [checkExts, hre, htail, Except.map] at h
          exact h ▸ ih e2 htail

        | ok v => simp [checkExts, hre, htail, Except.map] at h
      · simp only [Bool.not_eq_true] at hre
        simp [checkExts, hre] at h
        exact ⟨.extensionRegex, h.symm⟩
    | vIter items =>
      simp [checkExts] at h
      exact ⟨.extensionNotString, h.symm⟩
    | vClass n b =>
      simp [checkExts] at h
      exact ⟨.extensionNotString, h.symm⟩
    | vOther n =>
      simp [checkExts] at h
      exact ⟨.extensionNotString, h.symm⟩

@[simp] lemma isOk_error {ε α : Type} (e : ε) : (Except.error e : Except ε α).isOk = false := rfl

@[simp] lemma isOk_ok {ε α : Type} (a : α) : (Except.ok a : Except ε α).isOk = true := rfl

lemma strListValid_of_checkExts_error {l : List PyVal} {e : VErr} (h : checkExts l = .error e) :
    strListValid l = false := by
  have he := checkExts_isOk_eq l
  rw [h] at he
  simpa [Except.isOk, Except.toBool] using he.symm

lemma strListValid_of_checkExts_ok {l : List PyVal} {v : List PStr} (h : checkExts l = .ok v) :
    strListValid l = true := by
  have he := checkExts_isOk_eq l
  rw [h] at he
  simpa [Except.isOk, Except.toBool] using he.symm

lemma plugin_pipeline_cases (m : PyModule) :
    ((get_extensions_and_cls m).isOk = specAccepts m) ∧
    ((validate_module m = .ok true) ↔ specAccepts m = true) ∧
    (get_extensions_and_cls m = .error .stopIteration →
      m.allVal = some (.vIter [.vStr extName, .vStr extName])) ∧
    (get_extensions_and_cls m = .error .typeError →
      ∃ items, m.allVal = some (.vIter items) ∧
        items.any (fun it => !isVStrB it) = true) := by
  cases hall : m.allVal with
  | none => simp [get_extensions_and_cls, validate_module, specAccepts, hall]
  | some v =>
    cases v with
    | vStr s => simp [get_extensions_and_cls, validate_module, specAccepts, hall]
    | vClass cid sub => simp [get_extensions_and_cls, validate_module, specAccepts, hall]
    | vOther oid => simp [get_extensions_and_cls, validate_module, specAccepts, hall]
    | vIter items =>
      cases items with
      | nil => simp [get_extensions_and_cls, validate_module, specAccepts, hall]
      | cons a rest =>
        cases rest with
        | nil => simp [get_extensions_and_cls, validate_module, specAccepts, hall]
        | cons b rest2 =>
          cases rest2 with
          | cons c rest3 =>
            simp [get_extensions_and_cls, validate_module, specAccepts, hall]
          | nil =>
            cases a with
            | vIter l1 =>
              simp [get_extensions_and_cls, validate_module, specAccepts, buildAttrs,
                isVStrB, hall]
            | vClass c1 s1 =>
              simp [get_extensions_and_cls, validate_module, specAccepts, buildAttrs,
                isVStrB, hall]
            | vOther o1 =>
              simp [get_extensions_and_cls, validate_module, specAccepts, buildAttrs,
                isVStrB, hall]
            | vStr n1 =>
              cases hg1 : getattrM m n1 with
              | none =>
                cases b with
                | vStr n2 =>
                  simp [get_extensions_and_cls, validate_module, specAccepts,
                    specExportsOk, buildAttrs, hall, hg1]
                | vIter l2 =>
                  simp [get_extensions_and_cls, validate_module, specAccepts,
                    buildAttrs, hall, hg1]
                | vClass c2 s2 =>
                  simp [get_extensions_and_cls, validate_module, specAccepts,
                    buildAttrs, hall, hg1]
                | vOther o2 =>
                  simp [get_extensions_and_cls, validate_module, specAccepts,
                    buildAttrs, hall, hg1]
              | some v1 =>
                cases b with
                | vIter l2 =>
                  simp [get_extensions_and_cls, validate_module, specAccepts, buildAttrs,
                    isVStrB, Except.map, hall, hg1]
                | vClass c2 s2 =>
                  simp [get_extensions_and_cls, validate_module, specAccepts, buildAttrs,
                    isVStrB, Except.map, hall, hg1]
                | vOther o2 =>
                  simp [get_extensions_and_cls, validate_module, specAccepts, buildAttrs,
                    isVStrB, Except.map, hall, hg1]
                | vStr n2 =>
                  cases hg2 : getattrM m n2 with
                  | none =>
                    simp [get_extensions_and_cls, validate_module, specAccepts,
                      specExportsOk, buildAttrs, Except.map, hall, hg1, hg2]
                  | some v2 =>
                    by_cases h12 : n1 = n2
                    · subst h12
                      rw [hg1] at hg2
                      injection hg2 with hv
                      subst hv
                      by_cases he : n1 = extName
                      · subst he
                        cases hpi : pyIter v1 with
                        | none =>
                          simp [get_extensions_and_cls, validate_module, specAccepts,
                            buildAttrs, pyDict, pyDictInsert, Except.map, hall, hg1, hpi]
                        | some extItems =>
                          cases hce : checkExts extItems with
                          | error e =>
                            obtain ⟨r, rfl⟩ := checkExts_error_invalid extItems e hce
                            simp [get_extensions_and_cls, validate_module, specAccepts,
                              buildAttrs, pyDict, pyDictInsert, Except.map, hall, hg1,
                              hpi, hce]
                          | ok exts =>
                            simp [get_extensions_and_cls, validate_module, specAccepts,
                              buildAttrs, pyDict, pyDictInsert, Except.map, hall, hg1,
                              hpi, hce]
                      · have he' : (n1 == extName) = false :=
                          beq_eq_false_iff_ne.mpr he
                        simp [get_extensions_and_cls, validate_module, specAccepts,
                          buildAttrs, pyDict, pyDictInsert, Except.map, hall, hg1, he']
                    · have h12' : (n1 == n2) = false := beq_eq_false_iff_ne.mpr h12
                      by_cases he1 : n1 = extName
                      · subst he1
                        have he2' : (n2 == extName) = false :=
                          beq_eq_false_iff_ne.mpr fun hh => h12 hh.symm
                        cases hpi : pyIter v1 with
                        | none =>
                          simp [get_extensions_and_cls, validate_module, specAccepts,
                            specExportsOk, buildAttrs, pyDict, pyDictInsert, Except.map,
                            hall, hg1, hg2, h12', he2', hpi]
                        | some extItems =>
                          cases hce : checkExts extItems with
                          | error e =>
                            obtain ⟨r, rfl⟩ := checkExts_error_invalid extItems e hce
                            have hsl := strListValid_of_checkExts_error hce
                            simp [get_extensions_and_cls, validate_module, specAccepts,
                              specExportsOk, buildAttrs, pyDict, pyDictInsert, Except.map,
                              hall, hg1, hg2, h12', he2', hpi, hce, hsl]
                          | ok exts =>
                            have hsl := strListValid_of_checkExts_ok hce
                            cases v2 with
                            | vClass c2 s2 =>
                              cases s2 <;>
                                simp [get_extensions_and_cls, validate_module, specAccepts,
                                  specExportsOk, buildAttrs, pyDict, pyDictInsert,
                                  isParserClass, Except.map, hall, hg1, hg2, h12', he2',
                                  hpi, hce, hsl]
                            | vStr s2 =>
                              simp [get_extensions_and_cls, validate_module, specAccepts,
                                specExportsOk, buildAttrs, pyDict, pyDictInsert,
                                isParserClass, Except.map, hall, hg1, hg2, h12', he2',
                                hpi, hce, hsl]
                            | vIter l2 =>
                              simp [get_extensions_and_cls, validate_module, specAccepts,
                                specExportsOk, buildAttrs, pyDict, pyDictInsert,
                                isParserClass, Except.map, hall, hg1, hg2, h12', he2',
                                hpi, hce, hsl]
                            | vOther o2 =>
                              simp [get_extensions_and_cls, validate_module, specAccepts,
                                specExportsOk, buildAttrs, pyDict, pyDictInsert,
                                isParserClass, Except.map, hall, hg1, hg2, h12', he2',
                                hpi, hce, hsl]
                      · by_cases he2 : n2 = extName
                        · subst he2
                          have he1' : (n1 == extName) = false :=
                            beq_eq_false_iff_ne.mpr he1
                          cases hpi : pyIter v2 with
                          | none =>
                            simp [get_extensions_and_cls, validate_module, specAccepts,
                              specExportsOk, buildAttrs, pyDict, pyDictInsert, Except.map,
                              hall, hg1, hg2, h12', he1', hpi]
                          | some extItems =>
                            cases hce : checkExts extItems with
                            | error e =>
                              obtain ⟨r, rfl⟩ := checkExts_error_invalid extItems e hce
                              have hsl := strListValid_of_checkExts_error hce
                              simp [get_extensions_and_cls, validate_module, specAccepts,
                                specExportsOk, buildAttrs, pyDict, pyDictInsert,
                                Except.map, hall, hg1, hg2, h12', he1', hpi, hce, hsl]
                            | ok exts =>
                              have hsl := strListValid_of_checkExts_ok hce
                              cases v1 with
                              | vClass c1 s1 =>
                                cases s1 <;>
                                  simp [get_extensions_and_cls, validate_module,
                                    specAccepts, specExportsOk, buildAttrs, pyDict,
                                    pyDictInsert, isParserClass, Except.map, hall, hg1,
                                    hg2, h12', he1', hpi, hce, hsl]
                              | vStr s1 =>
                                simp [get_extensions_and_cls, validate_module, specAccepts,
                                  specExportsOk, buildAttrs, pyDict, pyDictInsert,
                                  isParserClass, Except.map, hall, hg1, hg2, h12', he1',
                                  hpi, hce, hsl]
                              | vIter l1 =>
                                simp [get_extensions_and_cls, validate_module, specAccepts,
                                  specExportsOk, buildAttrs, pyDict, pyDictInsert,
                                  isParserClass, Except.map, hall, hg1, hg2, h12', he1',
                                  hpi, hce, hsl]
                              | vOther o1 =>
                                simp [get_extensions_and_cls, validate_module, specAccepts,
                                  specExportsOk, buildAttrs, pyDict, pyDictInsert,
                                  isParserClass, Except.map, hall, hg1, hg2, h12', he1',
                                  hpi, hce, hsl]
                        · have he1' : (n1 == extName) = false :=
                            beq_eq_false_iff_ne.mpr he1
                          have he2' : (n2 == extName) = false :=
                            beq_eq_false_iff_ne.mpr he2
                          simp [get_extensions_and_cls, validate_module, specAccepts,
                            buildAttrs, pyDict, pyDictInsert, Except.map, hall, hg1, hg2,
                            h12', he1', he2']

/-- C6 (amended): a loaded artifact is accepted by
`get_extensions_and_parser_cls` exactly when it satisfies the spec's four
conditions (`specAccepts`), and the v2 `validate_module` agrees; every
violation yields an `InvalidModule` rejection except two uncaught escapes:
`next(...)` raises `StopIteration` when `__all__` lists `EXTENSIONS`
twice (with an otherwise valid `EXTENSIONS` binding), and
`getattr(module, item)` raises `TypeError` when `__all__` contains a
non-string item. -/
theorem plugin_acceptance_iff_spec_and_error_taxonomy (m : PyModule) :
    ((get_extensions_and_cls m).isOk = specAccepts m) ∧
    ((validate_module m = .ok true) ↔ specAccepts m = true) ∧
    (get_extensions_and_cls m = .error .stopIteration →
      m.allVal = some (.vIter [.vStr extName, .vStr extName])) ∧
    (get_extensions_and_cls m = .error .typeError →
      ∃ items, m.allVal = some (.vIter items) ∧
        items.any (fun it => !isVStrB it) = true) :=
  plugin_pipeline_cases m

/-- C6 counterexample: two violating artifacts on which
`get_extensions_and_parser_cls` raises something other than
`InvalidModule` — an uncaught `StopIteration` and an uncaught
`TypeError` — falsifying the claim that every violation yields an
InvalidPlugin/InvalidModule rejection and never any other error. -/
theorem get_extensions_and_cls_non_invalid_module_escapes :
    get_extensions_and_cls dupExtensionsModule = .error .stopIteration ∧
    get_extensions_and_cls badAllItemModule = .error .typeError :=
  ⟨rfl, rfl⟩

/-- C6 witness: the amended theorem applied to the concrete
twice-listed-`EXTENSIONS` module, discharging the `StopIteration`
hypothesis by evaluation. -/
theorem plugin_acceptance_iff_spec_and_error_taxonomy_witness :
    PyModule.allVal dupExtensionsModule = some (.vIter [.vStr extName, .vStr extName]) :=
  (plugin_acceptance_iff_spec_and_error_taxonomy dupExtensionsModule).2.2.1 rfl

lemma registerExts_ok_iff (cls : ParserTy) :
    ∀ exts acc, (acc.map Prod.fst).Nodup →
      (((registerExts cls exts acc).isOk = true ↔
        (acc.map Prod.fst ++ exts).Nodup) ∧
       ∀ acc2, registerExts cls exts acc = .ok acc2 →
         acc2.map Prod.fst = acc.map Prod.fst ++ exts) := by
  intro exts
  induction exts with
  | nil =>
    intro acc hacc
    refine ⟨by simp [registerExts, hacc], ?_⟩
    intro acc2 h
    simp [registerExts] at h
    subst h
    simp
  | cons e rest ih =>
    intro acc hacc
    by_cases hmem : (acc.any fun q => q.1 == e) = true
    · have he : e ∈ acc.map Prod.fst := by
        simp only [List.any_eq_true] at hmem
        obtain ⟨q, hq, hqe⟩ := hmem
        exact List.mem_map.mpr ⟨q, hq, by simpa using hqe⟩
      have hnot : ¬ (acc.map Prod.fst ++ e :: rest).Nodup := by
        intro hnd
        rcases List.nodup_append.mp hnd with ⟨-, -, hdisj⟩
        exact hdisj he (List.mem_cons_self e rest)
      refine ⟨by simp [registerExts, hmem, hnot], ?_⟩
      intro acc2 h
      simp [registerExts, hmem] at h
    · simp only [Bool.not_eq_true] at hmem
      have henot : e ∉ acc.map Prod.fst := by
        intro he
        obtain ⟨q, hq, hqe⟩ := List.mem_map.mp he
        have : (acc.any fun q => q.1 == e) = true :=
          List.any_eq_true.mpr ⟨q, hq, by simp [hqe]⟩
        rw [hmem] at this
        exact Bool.false_ne_true this
      have hacc2 : ((acc ++ [(e, cls)]).map Prod.fst).Nodup := by
        rw [List.map_append]
        refine List.Nodup.append hacc (by simp) ?_
        intro x hx hx2
        simp only [List.map_cons, List.map_nil, List.mem_singleton] at hx2
        subst hx2
        exact henot hx
      obtain ⟨ih1, ih2⟩ := ih (acc ++ [(e, cls)]) hacc2
      have hshape : (acc ++ [(e, cls)]).map Prod.fst ++ rest =
          acc.map Prod.fst ++ e :: rest := by
        simp
      constructor
      · rw [registerExts]
        simp only [hmem, Bool.false_eq_true, if_false]
        rw [ih1, hshape]
      · intro acc2 h
        rw [registerExts] at h
        simp only [hmem, Bool.false_eq_true, if_false] at h
        have := ih2 acc2 h
        rw [this, hshape]

lemma load_parsers_v2_go_ok_iff :
    ∀ (arts : List (Option PyModule)) (acc : Registry),
      (∀ m ∈ arts.filterMap id, (validate_module m).isOk = true) →
      (acc.map Prod.fst).Nodup →
      ((load_parsers_v2_go arts acc).isOk = true ↔
        (acc.map Prod.fst ++ validExts arts).Nodup) := by
  intro arts
  induction arts with
  | nil =>
    intro acc _ hacc
    simpa [load_parsers_v2_go, validExts] using hacc
  | cons a rest ih =>
    intro acc hval hacc
    cases a with
    | none =>
      have hval2 : ∀ m ∈ rest.filterMap id, (validate_module m).isOk = true :=
        fun m2 hm2 => hval m2 (by simpa using hm2)
      simpa [load_parsers_v2_go, validExts] using ih acc hval2 hacc
    | some m =>
      have hvm : (validate_module m).isOk = true := hval m (by simp)
      have hval2 : ∀ m2 ∈ rest.filterMap id, (validate_module m2).isOk = true :=
        fun m2 hm2 => hval m2 (by simp [hm2])
      cases hv : validate_module m with
      | error u => rw [hv] at hvm; simp at hvm
      | ok b =>
        cases b with
        | false =>
          have hvt : isValidatedTrue m = false := by simp [isValidatedTrue, hv]
          have := ih acc hval2 hacc
          simpa [load_parsers_v2_go, hv, validExts, hvt] using this
        | true =>
          have hvt : isValidatedTrue m = true := by simp [isValidatedTrue, hv]
          have hvex : validExts (some m :: rest) = moduleExts m ++ validExts rest := by
            simp [validExts, hvt]
          cases hreg : registerExts (moduleCls m) (moduleExts m) acc with
          | error e =>
            have hiff := (registerExts_ok_iff (moduleCls m) (moduleExts m) acc hacc).1
            rw [hreg] at hiff
            simp only [isOk_error, Bool.false_eq_true, false_iff] at hiff
            have hnot : ¬ (acc.map Prod.fst ++ validExts (some m :: rest)).Nodup := by
              intro hnd
              apply hiff
              have hsub : List.Sublist (acc.map Prod.fst ++ moduleExts m)
                  (acc.map Prod.fst ++ validExts (some m :: rest)) := by
                rw [hvex, ← List.append_assoc]
                exact List.sublist_append_left _ _
              exact hnd.sublist hsub
            simp [load_parsers_v2_go, hv, hreg, hnot]
          | ok acc2 =>
            obtain ⟨hiff, hval_acc2⟩ :=
              registerExts_ok_iff (moduleCls m) (moduleExts m) acc hacc
            have hkeys2 : acc2.map Prod.fst = acc.map Prod.fst ++ moduleExts m :=
              hval_acc2 acc2 hreg
            have hnd2 : (acc2.map Prod.fst).Nodup := by
              rw [hkeys2]
              rw [hreg] at hiff
              simpa using hiff.mp rfl
            have hih := ih acc2 hval2 hnd2
            have hgo : load_parsers_v2_go (some m :: rest) acc =
                load_parsers_v2_go rest acc2 := by
              simp [load_parsers_v2_go, hv, hreg]
            rw [hgo, hih, hkeys2, hvex, List.append_assoc]

/-- C5 (amended): in the v2 registry construction, an artifact that fails
to load (`none`) or whose validation returns `False` is skipped and
construction continues with the rest; provided no validation raises,
construction succeeds exactly when no extension is claimed twice among
the valid artifacts (a duplicate aborting construction with a hard
error).  The v1 `load_parsers` instead aborts on the first record whose
artifact is missing, is a directory, fails to execute, or fails
validation. -/
theorem registry_construction_skip_vs_fatal :
    (∀ rest : List (Option PyModule),
      load_parsers_v2 (none :: rest) = load_parsers_v2 rest) ∧
    (∀ (m : PyModule) (rest : List (Option PyModule)),
      validate_module m = .ok false →
      load_parsers_v2 (some m :: rest) = load_parsers_v2 rest) ∧
    (∀ arts : List (Option PyModule),
      (∀ m ∈ arts.filterMap id, (validate_module m).isOk = true) →
      ((load_parsers_v2 arts).isOk = true ↔ (validExts arts).Nodup)) ∧
    (∀ (fs : PStr → FileStatus) (exec : PStr → Option PyModule) (hid : PStr)
        (entry : Record) (rest : List (PStr × Record)),
      (fs entry.path ≠ .file ∨ exec entry.path = none ∨
        (∃ m e, exec entry.path = some m ∧ get_extensions_and_cls m = .error e)) →
      ∃ err, load_parsers_v1 fs exec ((hid, entry) :: rest) = .error err) := by
  refine ⟨fun rest => rfl, ?_, ?_, ?_⟩
  · intro m rest hv
    simp [load_parsers_v2, load_parsers_v2_go, hv]
  · intro arts hval
    simpa [load_parsers_v2] using load_parsers_v2_go_ok_iff arts [] hval (by simp)
  · intro fs exec hid entry rest hfail
    cases hfs : fs entry.path with
    | missing =>
      exact ⟨.fileNotFound entry.path, by simp [load_parsers_v1, load_parsers_v1_go, hfs]⟩
    | directory =>
      exact ⟨.isADirectory entry.path, by simp [load_parsers_v1, load_parsers_v1_go, hfs]⟩
    | file =>
      rcases hfail with hne | hexec | ⟨m, e, hm, hge⟩
      · exact absurd hfs hne
      · exact ⟨.importError entry.path,
          by simp [load_parsers_v1, load_parsers_v1_go, hfs, hexec]⟩
      · exact ⟨.moduleError e,
          by simp [load_parsers_v1, load_parsers_v1_go, hfs, hm, hge]⟩

/-- C5 witness: the skip, characterization and v1-abort clauses of the
amended theorem applied at concrete inputs, each hypothesis discharged by
evaluation. -/
theorem registry_construction_skip_vs_fatal_witness :
    load_parsers_v2 [some noAllModule] = load_parsers_v2 [] ∧
    ((load_parsers_v2 [some noAllModule]).isOk = true ↔
      (validExts [some noAllModule]).Nodup) ∧
    (∃ err, load_parsers_v1 (fun _ => .missing) (fun _ => none)
        [(extName, ⟨[], [], []⟩)] = .error err) := by
  refine ⟨?_, ?_, ?_⟩
  · exact registry_construction_skip_vs_fatal.2.1 noAllModule [] rfl
  · refine registry_construction_skip_vs_fatal.2.2.1 [some noAllModule] ?_
    intro m2 hm2
    simp only [List.filterMap_cons, id, List.filterMap_nil, List.mem_singleton] at hm2
    subst hm2
    rfl
  · exact registry_construction_skip_vs_fatal.2.2.2 (fun _ => .missing) (fun _ => none)
      extName ⟨[], [], []⟩ [] (Or.inl (by decide))

/-- C5 counterexample: in the v1 registry construction a single invalid
artifact is not skipped — construction aborts with an error and the valid
artifact after it is never registered, although it registers fine on its
own. -/
theorem load_parsers_v1_aborts_on_single_invalid_artifact :
    load_parsers_v1 fsAllFiles execModules storeWithBadFirst =
      .error (.moduleError (.invalidModule .allMissingOrInvalid)) ∧
    load_parsers_v1 fsAllFiles execModules
      [("h2".data, ⟨[".y".data], "good.py".data, "other.py".data⟩)] =
      .ok [(".y".data, .plugin 2)] :=
  ⟨rfl, rfl⟩

lemma pstr_contains_iff_mem {l : List PStr} {x : PStr} : l.contains x = true ↔ x ∈ l := by
  simp [List.contains_iff_exists_mem_beq]

lemma install_module_eq_dup (modules : List (PStr × Record)) (fileHash origName : PStr)
    (loadOutcome : Option PyModule)
    (h : (modules.any fun en => en.1 == fileHash) = true) :
    install_module modules fileHash origName loadOutcome =
      .error .alreadyInstalledHash := by
  unfold install_module
  rw [if_pos h]

lemma install_module_eq_load_failure (modules : List (PStr × Record))
    (fileHash origName : PStr)
    (h : (modules.any fun en => en.1 == fileHash) = false) :
    install_module modules fileHash origName none = .error .loadFailure := by
  unfold install_module
  rw [if_neg (by simp [h])]

lemma install_module_eq_invalid (modules : List (PStr × Record)) (fileHash origName : PStr)
    (m : PyModule) (e0 : VErr)
    (h : (modules.any fun en => en.1 == fileHash) = false)
    (hge : get_extensions_and_cls m = .error e0) :
    install_module modules fileHash origName (some m) = .error (.invalid e0) := by
  unfold install_module
  rw [if_neg (by simp [h])]
  simp only [hge]

lemma install_module_eq_ok (modules : List (PStr × Record)) (fileHash origName : PStr)
    (m : PyModule) (exts : List PStr) (cls : PyVal)
    (h : (modules.any fun en => en.1 == fileHash) = false)
    (hge : get_extensions_and_cls m = .ok (exts, cls))
    (hov : (exts.filter fun x => (installedExtensions modules).contains x).isEmpty = true) :
    install_module modules fileHash origName (some m) =
      .ok (modules ++ [(fileHash,
        { extensions := exts
          path := storedPath fileHash
          originalName := origName })]) := by
  unfold install_module
  rw [if_neg (by simp [h])]
  simp only [hge]
  rw [if_pos hov]

lemma install_module_eq_overlap (modules : List (PStr × Record)) (fileHash origName : PStr)
    (m : PyModule) (exts : List PStr) (cls : PyVal)
    (h : (modules.any fun en => en.1 == fileHash) = false)
    (hge : get_extensions_and_cls m = .ok (exts, cls))
    (hov : (exts.filter fun x => (installedExtensions modules).contains x).isEmpty = false) :
    install_module modules fileHash origName (some m) =
      .error (.alreadyInstalledExtensions
        (exts.filter fun x => (installedExtensions modules).contains x)) := by
  unfold install_module
  rw [if_neg (by simp [h])]
  simp only [hge]
  rw [if_neg (by rw [hov]; simp)]

/-- C2: `install_module` fails with `ModuleAlreadyInstalled` exactly when
the candidate's hash is already installed, or the artifact loads and
validates and its extension set intersects the union of the installed
records' extensions; the overlap error names exactly the conflicting
extensions; and on every failure the persisted store is left exactly as
it was (no record added, previous records unchanged). -/
theorem install_already_installed_iff_and_all_or_nothing
    (modules : List (PStr × Record)) (fileHash origName : PStr)
    (loadOutcome : Option PyModule) :
    ((∃ e, install_module modules fileHash origName loadOutcome = .error e ∧
        isAlreadyInstalled e = true) ↔
      ((modules.any fun en => en.1 == fileHash) = true ∨
        (∃ m exts cls, loadOutcome = some m ∧
          get_extensions_and_cls m = .ok (exts, cls) ∧
          ∃ x ∈ exts, x ∈ installedExtensions modules))) ∧
    (∀ ov, install_module modules fileHash origName loadOutcome =
        .error (.alreadyInstalledExtensions ov) →
      ov ≠ [] ∧ ∀ x ∈ ov, x ∈ installedExtensions modules) ∧
    (∀ e, install_module modules fileHash origName loadOutcome = .error e →
      (install_run modules fileHash origName loadOutcome).2 = modules) := by
  by_cases hdup : (modules.any fun en => en.1 == fileHash) = true
  · have heq := install_module_eq_dup modules fileHash origName loadOutcome hdup
    refine ⟨⟨fun _ => Or.inl hdup, fun _ => ⟨.alreadyInstalledHash, heq, rfl⟩⟩, ?_, ?_⟩
    · intro ov hov
      rw [heq] at hov
      simp at hov
    · intro e he
      simp [install_run, heq]
  · have hdup' : (modules.any fun en => en.1 == fileHash) = false :=
      Bool.eq_false_iff.mpr hdup
    cases lo : loadOutcome with
    | none =>
      have heq := install_module_eq_load_failure modules fileHash origName hdup'
      refine ⟨⟨?_, ?_⟩, ?_, ?_⟩
      · rintro ⟨e, he, hae⟩
        rw [heq] at he
        injection he with h2
        subst h2
        simp [isAlreadyInstalled] at hae
      · rintro (hl | ⟨m', exts', cls', hm', -, -⟩)
        · rw [hdup'] at hl
          simp at hl
        · exact Option.noConfusion hm'
      · intro ov hov
        rw [heq] at hov
        simp at hov
      · intro e he
        simp [install_run, heq]
    | some m =>
      cases hge : get_extensions_and_cls m with
      | error e0 =>
        have heq := install_module_eq_invalid modules fileHash origName m e0 hdup' hge
        refine ⟨⟨?_, ?_⟩, ?_, ?_⟩
        · rintro ⟨e, he, hae⟩
          rw [heq] at he
          injection he with h2
          subst h2
          simp [isAlreadyInstalled] at hae
        · rintro (hl | ⟨m', exts', cls', hm', hge', -⟩)
          · rw [hdup'] at hl
            simp at hl
          · injection hm' with hmm
            subst hmm
            rw [hge] at hge'
            simp at hge'
        · intro ov hov
          rw [heq] at hov
          simp at hov
        · intro e he
          simp [install_run, heq]
      | ok p =>
        obtain ⟨exts, cls⟩ := p
        by_cases hovb : (exts.filter fun x =>
            (installedExtensions modules).contains x).isEmpty = true
        · have heq := install_module_eq_ok modules fileHash origName m exts cls hdup' hge hovb
          have hfilnil : exts.filter (fun x =>
              (installedExtensions modules).contains x) = [] :=
            List.isEmpty_iff.mp hovb
          refine ⟨⟨?_, ?_⟩, ?_, ?_⟩
          · rintro ⟨e, he, -⟩
            rw [heq] at he
            simp at he
          · rintro (hl | ⟨m', exts', cls', hm', hge', x, hx, hxin⟩)
            · rw [hdup'] at hl
              simp at hl
            · injection hm' with hmm
              subst hmm
              rw [hge] at hge'
              injection hge' with hp
              injection hp with hpe hpc
              subst hpe
              have hmemfil : x ∈ exts.filter (fun y =>
                  (installedExtensions modules).contains y) :=
                List.mem_filter.mpr ⟨hx, pstr_contains_iff_mem.mpr hxin⟩
              rw [hfilnil] at hmemfil
              exact absurd hmemfil (List.not_mem_nil x)
          · intro ov hov
            rw [heq] at hov
            simp at hov
          · intro e he
            rw [heq] at he
            simp at he
        · have hov' : (exts.filter fun x =>
              (installedExtensions modules).contains x).isEmpty = false := by
            simpa using hovb
          have heq := install_module_eq_overlap modules fileHash origName m exts cls
            hdup' hge hov'
          have hfilne : exts.filter (fun x =>
              (installedExtensions modules).contains x) ≠ [] := by
            intro hnil
            rw [hnil] at hov'
            simp at hov'
          refine ⟨⟨?_, ?_⟩, ?_, ?_⟩
          · intro _
            refine Or.inr ⟨m, exts, cls, rfl, hge, ?_⟩
            obtain ⟨x, hxmem⟩ := List.exists_mem_of_ne_nil _ hfilne
            obtain ⟨hxe, hxc⟩ := List.mem_filter.mp hxmem
            exact ⟨x, hxe, pstr_contains_iff_mem.mp hxc⟩
          · intro _
            exact ⟨.alreadyInstalledExtensions _, heq, rfl⟩
          · intro ov hov2
            rw [heq] at hov2
            injection hov2 with h2
            injection h2 with h3
            subst h3
            exact ⟨hfilne, fun x hxmem =>
              pstr_contains_iff_mem.mp (List.mem_filter.mp hxmem).2⟩
          · intro e he
            simp [install_run, heq]

/-- C2 witness: re-installing the already-present hash `h1` fails and
leaves the persisted store unchanged; the theorem's failure hypothesis is
discharged by evaluation. -/
theorem install_already_installed_iff_and_all_or_nothing_witness :
    (install_run preinstalledStore "h1".data "dup.py".data none).2 = preinstalledStore :=
  (install_already_installed_iff_and_all_or_nothing preinstalledStore "h1".data
    "dup.py".data none).2.2 .alreadyInstalledHash rfl

/-- C3, evaluated at the failing input: with a directory at the first
record's stored path, `uninstall_module("*")` raises `IsADirectoryError`
from inside the loop — no deletion is attempted for the second record
(`deleted = []`) and both records remain persisted — contradicting the
claim that each record's removal is independent and zero records remain.
On the same store with every path a regular file, the call does delete
both files and clears the store. -/
theorem uninstall_star_aborts_on_directory_and_keeps_records :
    uninstall_star fsDirFirst storeTwoRecords =
      ⟨.error (.isADirectory "pdir".data), [], storeTwoRecords⟩ ∧
    (uninstall_star fsDirFirst storeTwoRecords).store.length = 2 ∧
    uninstall_star (fun _ => .file) storeTwoRecords =
      ⟨.ok (), ["pdir".data, "pfile".data], []⟩ :=
  ⟨rfl, rfl, rfl⟩

/-- C9 (amended): the two resolution paths agree only on the empty
registry, where both return `DefaultParser` for every filename; over any
non-empty registry the v2 `get_parser` raises `TypeError` instead of
returning a parser. -/
theorem get_parser_v1_v2_agree_only_on_empty_registry :
    (∀ filename, getParserV2 [] filename = .ok (getParserV1 [] filename)) ∧
    (∀ (ps : Registry) (filename : PStr), ps ≠ [] →
      getParserV2 ps filename = .error ()) := by
  refine ⟨fun _ => rfl, ?_⟩
  intro ps filename hne
  cases ps with
  | nil => exact absurd rfl hne
  | cons a rest => rfl

/-- C9 witness: the amended theorem at a concrete one-entry registry,
the non-emptiness hypothesis discharged by evaluation. -/
theorem get_parser_v1_v2_agree_only_on_empty_registry_witness :
    getParserV2 [(".txt".data, ParserTy.plugin 1)] "b.md".data = .error () :=
  get_parser_v1_v2_agree_only_on_empty_registry.2
    [(".txt".data, ParserTy.plugin 1)] "b.md".data (by simp)

/-- C9 counterexample: on the registry mapping `.txt` to a plugin parser,
the v1 `get_parser` returns that parser for `a.txt` while the v2
`get_parser` raises `TypeError` — the two paths are not observationally
equivalent. -/
theorem get_parser_v2_type_error_on_nonempty_registry :
    getParserV1 [(".txt".data, ParserTy.plugin 1)] "a.txt".data = .plugin 1 ∧
    getParserV2 [(".txt".data, ParserTy.plugin 1)] "a.txt".data = .error () :=
  ⟨rfl, rfl⟩

/-- C10: the install-time and load-time extension checks compare exactly:
installing `.txt` then `.TXT` succeeds (no overlap as exact strings) and
the registry builds with both bindings and no conflict error; yet the
two extensions are equal up to case, both match the filename `a.txt` in
`get_parser`'s case-insensitive suffix matching, and insertion order
silently decides that the `.txt` plugin wins — the no-shared-extension
invariant holds only up to exact string equality, not up to the
case-insensitive equivalence used at resolution. -/
theorem exact_collision_checks_vs_case_insensitive_resolution :
    install_module [] "h1".data "a.py".data (some txtPluginModule) = .ok lowerTxtStore ∧
    install_module lowerTxtStore "h2".data "b.py".data (some upperTxtPluginModule) =
      .ok bothTxtStore ∧
    load_parsers_v1 fsAllFiles execTxtModules bothTxtStore =
      .ok [(".txt".data, .plugin 10), (".TXT".data, .plugin 11)] ∧
    ".txt".data ≠ ".TXT".data ∧
    pyLower ".txt".data = pyLower ".TXT".data ∧
    pyEndsWith (pyLower "a.txt".data) (pyLower ".txt".data) = true ∧
    pyEndsWith (pyLower "a.txt".data) (pyLower ".TXT".data) = true ∧
    getParserV1 [(".txt".data, .plugin 10), (".TXT".data, .plugin 11)] "a.txt".data =
      .plugin 10 :=
  ⟨rfl, rfl, rfl, by decide, rfl, rfl, rfl, rfl⟩
